import Mathlib

/-!
Verification of the request-authenticator / device-identity slice of the
puffsocial API (route handlers in `src/routes.ts` and the two unnamed route
files).  Device identity keys are produced with Node's `Buffer` base64
encoding, so we first build an executable model of RFC 4648 base64 over byte
lists (`encodeB64` / `decodeB64`) and prove the decode-encode round trip.
Strings are modelled as `List Char`, bytes as `Nat` values below 256.
-/

namespace Puff

/-- Hexadecimal value of a character, as `parseInt(c, 16)` would produce on a
single hex digit; non-hex characters map to 0 (they never occur on validated
input). -/
def hexVal (c : Char) : Nat :=
  if '0' ≤ c ∧ c ≤ '9' then c.toNat - 48
  else if 'a' ≤ c ∧ c ≤ 'f' then c.toNat - 87
  else if 'A' ≤ c ∧ c ≤ 'F' then c.toNat - 55
  else 0

/-- Whether a character is a hexadecimal digit. -/
def isHexChar (c : Char) : Bool :=
  ('0' ≤ c && c ≤ '9') || ('a' ≤ c && c ≤ 'f') || ('A' ≤ c && c ≤ 'F')

/-- The base64 alphabet used by Node's `Buffer.toString("base64")`. -/
def b64Chars : List Char :=
  "ABCDEFGHIJKLMNOPQRSTUVWXYZabcdefghijklmnopqrstuvwxyz0123456789+/".toList

/-- Character for a 6-bit value. -/
def charOfSextet (n : Nat) : Char := b64Chars.getD n '='

/-- Inverse lookup in the base64 alphabet. -/
def sextetOfChar (c : Char) : Option Nat := b64Chars.findIdx? (fun x => x == c)

/-- Regroup a byte list into 6-bit values (most significant bits first inside
each 3-byte group), as base64 does. -/
def sextetsOf : List Nat → List Nat
  | [] => []
  | [a] => [a / 4, a % 4 * 16]
  | [a, b] => [a / 4, a % 4 * 16 + b / 16, b % 16 * 4]
  | a :: b :: c :: rest =>
      a / 4 :: (a % 4 * 16 + b / 16) :: (b % 16 * 4 + c / 64) :: c % 64 :: sextetsOf rest

/-- Padding characters appended by base64 for a byte list of the given length. -/
def padOf (l : List Nat) : List Char :=
  match l.length % 3 with
  | 1 => ['=', '=']
  | 2 => ['=']
  | _ => []

/-- Model of Node's `Buffer.toString("base64")`: RFC 4648 base64 with padding. -/
def encodeB64 (l : List Nat) : List Char :=
  (sextetsOf l).map charOfSextet ++ padOf l

/-- Map base64 characters back to their 6-bit values, failing on characters
outside the alphabet. -/
def sextetsOfChars : List Char → Option (List Nat)
  | [] => some []
  | c :: rest =>
      match sextetOfChar c, sextetsOfChars rest with
      | some s, some ss => some (s :: ss)
      | _, _ => none

/-- Reassemble bytes from 6-bit groups (inverse of `sextetsOf`); trailing
malformed groups yield nothing, as a lenient decoder drops them. -/
def bytesOfSextets : List Nat → List Nat
  | s1 :: s2 :: s3 :: s4 :: rest =>
      (s1 * 4 + s2 / 16) :: (s2 % 16 * 16 + s3 / 4) :: (s3 % 4 * 64 + s4) :: bytesOfSextets rest
  | [s1, s2] => [s1 * 4 + s2 / 16]
  | [s1, s2, s3] => [s1 * 4 + s2 / 16, s2 % 16 * 16 + s3 / 4]
  | _ => []

/-- Model of Node's `Buffer.from(s, "base64")`: ignore padding characters,
map the rest through the alphabet and regroup into bytes. -/
def decodeB64 (cs : List Char) : Option (List Nat) :=
  match sextetsOfChars (cs.filter (fun c => c != '=')) with
  | some ss => some (bytesOfSextets ss)
  | none => none

/-! ## Device identity derivation (`/track` handler, unnamed route file `part_000`) -/

/-- Namespace tag put in front of every device identity key. -/
def deviceTag : List Char := "device_".toList

/-- Modelled from the spec: `macAddressToUint8Array` is defined in
`src/utils.ts`, which is not part of the provided sources; per the spec it
turns the MAC's colon-separated hexadecimal text into its byte values
(each `HH` pair becomes one byte, in textual order). -/
def macToBytes : List Char → List Nat
  | a :: b :: ':' :: rest => (hexVal a * 16 + hexVal b) :: macToBytes rest
  | [a, b] => [hexVal a * 16 + hexVal b]
  | _ => []

/-- Model of `unpack(bytes, { bits: 32 })` from the `byte-data` npm package:
it reads one 32-bit unsigned integer from the first four bytes, and the
package's `be` option defaults to `false`, i.e. little-endian byte order.
Inputs shorter than four bytes never occur on validated MACs. -/
def unpack32LE : List Nat → Nat
  | b0 :: b1 :: b2 :: b3 :: _ => b0 + b1 * 256 + b2 * 65536 + b3 * 16777216
  | _ => 0

/-- Decimal representation of a natural number, as `Number.prototype.toString`
produces for an unsigned 32-bit value. -/
def natChars (n : Nat) : List Char := (Nat.repr n).toList

/-- Byte values of an ASCII string, as `Buffer.from(text)` produces (UTF-8;
identical to the code points for the characters occurring in MACs and
decimal strings). -/
def textBytes (cs : List Char) : List Nat := cs.map Char.toNat

/-- Legacy device identity key from the `/track` handler:
`device_` + base64 of the decimal text of
`unpack(macAddressToUint8Array(mac.substring(3)), { bits: 32 })`. -/
def oldGeneratedDeviceId (mac : List Char) : List Char :=
  deviceTag ++ encodeB64 (textBytes (natChars (unpack32LE (macToBytes (mac.drop 3)))))

/-- Current device identity key from the `/track` handler:
`device_` + `Buffer.from(mac).toString("base64")`, i.e. base64 of the
textual MAC. -/
def generatedDeviceId (mac : List Char) : List Char :=
  deviceTag ++ encodeB64 (textBytes mac)

/-- Little-endian value of a byte list (least significant byte first),
written as the claim's amended wording reads. -/
def leNum : List Nat → Nat
  | [] => 0
  | b :: rest => b + 256 * leNum rest

/-- Big-endian value of a byte list (most significant byte first), as the
claim's original wording reads. -/
def beNum : List Nat → Nat
  | [] => 0
  | b :: rest => b * 256 ^ rest.length + beNum rest

/-- Legacy key as claim C3 words it: strip the fixed-length prefix from the
MAC text, reinterpret the remaining bytes as a big-endian 32-bit unsigned
integer (the first four of them), decimal text, base64, `device_` tag. -/
def legacyKeySpecBE (mac : List Char) : List Char :=
  deviceTag ++ encodeB64 (textBytes (natChars (beNum ((macToBytes (mac.drop 3)).take 4))))

/-- Legacy key as the amended claim words it: parse the whole MAC text into
its six bytes, drop the byte hidden by the stripped three-character prefix,
read the next four bytes as a little-endian 32-bit unsigned integer, then
decimal text, base64, `device_` tag. -/
def legacyKeySpecLE (mac : List Char) : List Char :=
  deviceTag ++ encodeB64 (textBytes (natChars (leNum (((macToBytes mac).drop 1).take 4))))

/-- The example MAC used throughout the spec. -/
def macEx : List Char := "AA:BB:CC:DD:EE:FF".toList

/-! ## Request authenticator -/

/-- Result of signature verification: the payload bytes on a match, or a
rejection. -/
inductive VerifyResult
  | ok (payload : List Nat)
  | rejected
deriving DecidableEq

/-- Hexadecimal character of a 4-bit value. -/
def hexDigitChar (n : Nat) : Char := "0123456789abcdef".toList.getD n '0'

/-- Lowercase hexadecimal text of a byte list, as `digest("hex")` produces. -/
def bytesToHex : List Nat → List Char
  | [] => []
  | b :: rest => hexDigitChar (b / 16) :: hexDigitChar (b % 16) :: bytesToHex rest

/-- Modelled from the spec: the keyed digest used by `verifyRequest`
(`src/utils.ts`, not among the provided sources).  The spec only requires a
deterministic keyed digest of the exact payload bytes computed with the
shared secret; the concrete mixing below is a stand-in with that shape
(none of the claims depends on the digest algorithm itself). -/
def keyedDigest (secret payload : List Nat) : List Nat :=
  (fun n => [n % 256, n / 256 % 256, n / 65536 % 256, n / 16777216 % 256])
    ((secret ++ payload).foldl (fun acc b => (acc * 31 + b + 1) % 4294967296) 7)

/-- Signature text the holder of the secret computes over a payload. -/
def signatureOf (secret payload : List Nat) : List Char :=
  bytesToHex (keyedDigest secret payload)

/-- Modelled from the spec: `verifyRequest` (`src/utils.ts`, not among the
provided sources) computes the keyed digest of the payload with the shared
secret, compares it with the supplied signature, and returns the payload
bytes unchanged on a match, signalling `Rejected` otherwise.  It is a pure
function of its inputs and the secret. -/
def verifyRequest (secret payload : List Nat) (signature : List Char) : VerifyResult :=
  if signatureOf secret payload = signature then .ok payload else .rejected

/-! ## Leaderboard store and the `/track` handler (unnamed route file `part_000`) -/

/-- One row of the `leaderboard` table, with the columns the `/track`
handler touches.  `created_at` is the creation timestamp column maintained
by the persistence schema (the Prisma schema is not among the provided
sources; per the spec it is set on creation and never overwritten). -/
structure LBRecord where
  id : List Char
  device_id : List Char
  device_name : List Char
  device_dob : Nat
  device_model : List Char
  owner_name : List Char
  total_dabs : Nat
  last_active : Option Nat
  last_ip : List Char
  user_id : Option (List Char)
  created_at : Nat
deriving DecidableEq

/-- The backing store: the rows of the `leaderboard` table. -/
abbrev Store : Type := List LBRecord

/-- Model of `prisma.leaderboard.findFirst({ where: { device_id } })`. -/
def findByDeviceId (store : Store) (k : List Char) : Option LBRecord :=
  List.find? (fun r => r.device_id == k) store

/-- Model of `prisma.leaderboard.update({ data: { device_id }, where: { id } })`:
the migration rename, a write keyed by the row id found by the preceding
read. -/
def updateDeviceIdById (store : Store) (targetId newKey : List Char) : Store :=
  List.map (fun r => if r.id == targetId then { r with device_id := newKey } else r) store

/-- One parsed `/track` request.  The body bytes are carried alongside the
fields the (external) schema layer extracts from them; `dobValid` stands for
`!isNaN(new Date(dob * 1000).getTime())`. -/
structure TrackRequest where
  sig : Option (List Char)
  rawBody : List Nat
  mac : List Char
  dobValid : Bool
  dob : Nat
  deviceName : List Char
  deviceModel : List Char
  ownerName : List Char
  totalDabs : Nat
  ip : List Char
  user : Option (List Char)
deriving DecidableEq

/-- Modelled from the spec: `trackingValidation` (`src/utils.ts`, not among
the provided sources) is the schema the body is parsed with; a malformed MAC
(wrong length, non-hex characters, missing colons) fails validation and the
parse throws.  The other body fields are taken as already well-typed. -/
def validMacShape (mac : List Char) : Bool :=
  match mac with
  | [a, b, ':', c, d, ':', e, f, ':', g, h, ':', i, j, ':', k, l] =>
      isHexChar a && isHexChar b && isHexChar c && isHexChar d && isHexChar e &&
      isHexChar f && isHexChar g && isHexChar h && isHexChar i && isHexChar j &&
      isHexChar k && isHexChar l
  | _ => false

/-- Model of `prisma.leaderboard.update({ data: { ...telemetry }, where:
{ device_id } })`: last-write-wins overwrite of the telemetry columns of the
row under the given key.  `device_id`, `id` and `created_at` do not appear
in the update's data. -/
def updateTelemetryByKey (store : Store) (k : List Char) (req : TrackRequest) (now : Nat) : Store :=
  List.map (fun r =>
    if r.device_id == k then
      { r with
        device_name := req.deviceName
        device_dob := req.dob
        device_model := req.deviceModel
        owner_name := req.ownerName
        total_dabs := req.totalDabs
        last_active := some now
        last_ip := req.ip
        user_id := match req.user with | some u => some u | none => r.user_id }
    else r) store

/-- Model of `prisma.leaderboard.create` in the `/track` handler: the new
row, keyed by the current device id (no `last_active` in its data). -/
def createRecord (freshId k : List Char) (req : TrackRequest) (now : Nat) : LBRecord :=
  { id := freshId
    device_id := k
    device_name := req.deviceName
    device_dob := req.dob
    device_model := req.deviceModel
    owner_name := req.ownerName
    total_dabs := req.totalDabs
    last_active := none
    last_ip := req.ip
    user_id := req.user
    created_at := now }

/-- What the `/track` handler hands back to the HTTP layer. -/
inductive TrackOutcome
  | success
  | clientError (code : List Char)
  | serverError (code : List Char)
  | noResponse
deriving DecidableEq

/-- The migration and upsert section of the `/track` handler (`part_000`,
lines 123–165): look up the row under the legacy key with `findFirst` and,
when found, rename it to the current key with `update where { id }`; then
look up the row under the current key and overwrite its telemetry
(`update where { device_id }`) or create it. -/
def migrateAndUpsert (freshId : List Char) (now : Nat) (req : TrackRequest)
    (store : Store) : Store :=
  let legacy := oldGeneratedDeviceId req.mac
  let current := generatedDeviceId req.mac
  let store1 :=
    match findByDeviceId store legacy with
    | some d => updateDeviceIdById store d.id current
    | none => store
  match findByDeviceId store1 current with
  | some _ => updateTelemetryByKey store1 current req now
  | none => store1 ++ [createRecord freshId current req now]

/-- The `/track` handler of the unnamed route file `part_000`, over the
store.  Faithful to the source's control flow: a missing (or empty, since
`!header` also rejects the empty string) `x-signature` header is answered
`400 invalid_tracking_data` before `verifyRequest` runs; a signature
mismatch surfaces as a client error (modelled from the spec, since
`verifyRequest`'s rejection shape lives in the missing `src/utils.ts`);
inside the `try`, a schema failure (malformed MAC) is caught by the
`catch (error) { console.error(error) }` block, which sends no response;
an invalid date is answered `400 invalid_tracking_data`; then the
migration and upsert section runs and `200` is returned. -/
def trackHandler (secret : List Nat) (freshId : List Char) (now : Nat)
    (req : TrackRequest) (store : Store) : TrackOutcome × Store :=
  match req.sig with
  | none => (.clientError "invalid_tracking_data".toList, store)
  | some s =>
    if s = [] then (.clientError "invalid_tracking_data".toList, store)
    else match verifyRequest secret req.rawBody s with
    | .rejected => (.clientError "invalid_signature".toList, store)
    | .ok _ =>
      if !validMacShape req.mac then (.noResponse, store)
      else if !req.dobValid then (.clientError "invalid_tracking_data".toList, store)
      else (.success, migrateAndUpsert freshId now req store)

/-- Store after one `/track` submission. -/
def stepStore (secret : List Nat) (freshId : List Char) (now : Nat)
    (req : TrackRequest) (store : Store) : Store :=
  (trackHandler secret freshId now req store).2

/-- Number of rows stored under a device identity key. -/
def countKey (store : Store) (k : List Char) : Nat :=
  (List.filter (fun r => r.device_id == k) store).length

/-- Two concurrent migration attempts for the same legacy record, each
consisting of the handler's read (`findFirst` by legacy key) and write
(`update where { id }` renaming to the current key), interleaved as
read-A, read-B, write-A, write-B.  The result records what each attempt
observed and the final store. -/
def raceObservations (store : Store) (legacy current : List Char) :
    Option LBRecord × Option LBRecord × Store :=
  let obsA := findByDeviceId store legacy
  let obsB := findByDeviceId store legacy
  let s1 := match obsA with
    | some d => updateDeviceIdById store d.id current
    | none => store
  let s2 := match obsB with
    | some d => updateDeviceIdById s1 d.id current
    | none => s1
  (obsA, obsB, s2)

/-- A sample shared secret for concrete runs. -/
def secretEx : List Nat := [3, 1, 4]

/-- A sample well-formed telemetry submission for the example MAC, carrying
its correctly computed signature. -/
def reqEx : TrackRequest :=
  { sig := some (signatureOf secretEx [10, 20]), rawBody := [10, 20], mac := macEx,
    dobValid := true, dob := 1234, deviceName := "Peak".toList,
    deviceModel := "Peak Pro".toList, ownerName := "Owner".toList, totalDabs := 5,
    ip := "10.0.0.1".toList, user := none }

/-- A sample row stored under the current key of the example MAC. -/
def rec0 : LBRecord :=
  { id := "lb_1".toList, device_id := generatedDeviceId macEx,
    device_name := "OldName".toList, device_dob := 1, device_model := "Peak".toList,
    owner_name := "OldOwner".toList, total_dabs := 2, last_active := none,
    last_ip := "9.9.9.9".toList, user_id := none, created_at := 42 }

/-- A sample row stored under the legacy key of the example MAC. -/
def rec0Legacy : LBRecord := { rec0 with device_id := oldGeneratedDeviceId macEx }

/-! ## Read endpoints and sanitisation -/

/-- A record as the HTTP layer serialises it: a list of named fields. -/
abbrev JsObject : Type := List (List Char × List Char)

/-- Modelled from the spec: `sanitize` (`src/utils.ts`, not among the
provided sources) deletes each listed property from the object before it is
sent, and returns the object. -/
def sanitize (obj : JsObject) (fields : List (List Char)) : JsObject :=
  List.filter (fun kv => decide (kv.1 ∉ fields)) obj

/-- Serialised view of a leaderboard row (revision `part_000` /
`src/routes.ts`). -/
def LBRecord.jsFields (r : LBRecord) : JsObject :=
  [("id".toList, r.id), ("device_id".toList, r.device_id),
   ("device_name".toList, r.device_name), ("device_dob".toList, natChars r.device_dob),
   ("device_model".toList, r.device_model), ("owner_name".toList, r.owner_name),
   ("total_dabs".toList, natChars r.total_dabs), ("last_ip".toList, r.last_ip),
   ("created_at".toList, natChars r.created_at)]

/-- Insert a row into a list sorted by `total_dabs` descending. -/
def insertByDabs (r : LBRecord) : List LBRecord → List LBRecord
  | [] => [r]
  | x :: xs => if x.total_dabs < r.total_dabs then r :: x :: xs else x :: insertByDabs r xs

/-- Model of `findMany({ orderBy: { total_dabs: "desc" } })`. -/
def sortByDabs (store : Store) : List LBRecord :=
  store.foldr insertByDabs []

/-- The `GET /leaderboard` handler of `part_000` / `src/routes.ts`: top ten
rows by `total_dabs`, each passed through `sanitize(lb, ["last_ip"])`. -/
def leaderboardV1 (store : Store) : List JsObject :=
  ((sortByDabs store).take 10).map (fun r => sanitize r.jsFields ["last_ip".toList])

/-- The `GET /device/:device_id` handler of `part_000`: the row under the
requested key, passed through `sanitize(device, ["last_ip"])`; `none` is the
404 branch. -/
def deviceV1 (store : Store) (param : List Char) : Option JsObject :=
  (findByDeviceId store param).map (fun r => sanitize r.jsFields ["last_ip".toList])

/-- One row of the `devices` table of the later revision (`part_001`), with
the columns its read endpoints expose. -/
structure DevRecord where
  id : List Char
  name : List Char
  mac : List Char
  dabs : Nat
  model : List Char
  firmware : List Char
  git_hash : List Char
  profiles : List Char
  serial_number : List Char
  last_ip : List Char
deriving DecidableEq

/-- Serialised view of a `devices` row. -/
def DevRecord.jsFields (d : DevRecord) : JsObject :=
  [("id".toList, d.id), ("name".toList, d.name), ("mac".toList, d.mac),
   ("dabs".toList, natChars d.dabs), ("model".toList, d.model),
   ("firmware".toList, d.firmware), ("git_hash".toList, d.git_hash),
   ("profiles".toList, d.profiles), ("serial_number".toList, d.serial_number),
   ("last_ip".toList, d.last_ip)]

/-- The field list of the later revision's sanitisation calls. -/
def v2Hidden : List (List Char) :=
  ["mac".toList, "git_hash".toList, "profiles".toList, "last_ip".toList,
   "serial_number".toList]

/-- The `GET /leaderboard` handler of the later revision (`part_001`): rows
ordered by position, truncated to the requested limit, each row's device
passed through `sanitize(lb.devices, ["mac", "git_hash", "profiles",
"last_ip", "serial_number"])`. -/
def leaderboardV2 (rows : List (Nat × DevRecord)) (limit : Nat) : List (Nat × JsObject) :=
  (rows.take limit).map (fun p => (p.1, sanitize p.2.jsFields v2Hidden))

/-- The `GET /device/:device_mac` handler of the later revision (`part_001`):
the device whose stored MAC equals the base64-decoded text after the `_` of
the path parameter, passed through the same `sanitize` call. -/
def deviceV2 (devices : List DevRecord) (param : List Char) : Option JsObject :=
  (decodeB64 ((param.dropWhile (fun c => c != '_')).drop 1)).bind (fun bytes =>
    (List.find? (fun d => d.mac == bytes.map Char.ofNat) devices).map
      (fun d => sanitize d.jsFields v2Hidden))

/-! ## Base64 lemmas -/

/-- All 6-bit groups produced from genuine bytes are below 64. -/
theorem sextetsOf_lt : ∀ l : List Nat, (∀ b ∈ l, b < 256) → ∀ s ∈ sextetsOf l, s < 64
  | [], _, s, hs => by simp [sextetsOf] at hs
  | [a], h, s, hs => by
      have ha : a < 256 := h a (by simp)
      simp [sextetsOf] at hs
      rcases hs with hs | hs <;> omega
  | [a, b], h, s, hs => by
      have ha : a < 256 := h a (by simp)
      have hb : b < 256 := h b (by simp)
      simp [sextetsOf] at hs
      rcases hs with hs | hs | hs <;> omega
  | a :: b :: c :: rest, h, s, hs => by
      have ha : a < 256 := h a (by simp)
      have hb : b < 256 := h b (by simp)
      have hc : c < 256 := h c (by simp)
      simp only [sextetsOf, List.mem_cons] at hs
      rcases hs with hs | hs | hs | hs | hs
      · omega
      · omega
      · omega
      · omega
      · exact sextetsOf_lt rest (fun x hx => h x (by simp [hx])) s hs

/-- Looking up the character of a 6-bit value gets the value back. -/
theorem sextetOfChar_charOfSextet : ∀ n, n < 64 → sextetOfChar (charOfSextet n) = some n := by
  decide

/-- Alphabet characters are never the padding character. -/
theorem charOfSextet_ne_pad : ∀ n, n < 64 → (charOfSextet n != '=') = true := by
  decide

/-- Filtering the padding out of an encoded string leaves exactly the alphabet
characters. -/
theorem filter_encodeB64 (l : List Nat) (h : ∀ b ∈ l, b < 256) :
    (encodeB64 l).filter (fun c => c != '=') = (sextetsOf l).map charOfSextet := by
  unfold encodeB64
  rw [List.filter_append]
  have h1 : ((sextetsOf l).map charOfSextet).filter (fun c => c != '=') =
      (sextetsOf l).map charOfSextet := by
    apply List.filter_eq_self.mpr
    intro c hc
    rcases List.mem_map.mp hc with ⟨s, hs, rfl⟩
    exact charOfSextet_ne_pad s (sextetsOf_lt l h s hs)
  have h2 : (padOf l).filter (fun c => c != '=') = [] := by
    unfold padOf
    have : l.length % 3 = 0 ∨ l.length % 3 = 1 ∨ l.length % 3 = 2 := by omega
    rcases this with h3 | h3 | h3 <;> simp [h3]
  rw [h1, h2, List.append_nil]

/-- Decoding the alphabet characters of valid 6-bit values succeeds. -/
theorem sextetsOfChars_map : ∀ ss : List Nat, (∀ s ∈ ss, s < 64) →
    sextetsOfChars (ss.map charOfSextet) = some ss
  | [], _ => rfl
  | s :: rest, h => by
      have hs : s < 64 := h s (by simp)
      have ih := sextetsOfChars_map rest (fun x hx => h x (by simp [hx]))
      simp only [List.map_cons, sextetsOfChars, sextetOfChar_charOfSextet s hs, ih]

/-- Regrouping the 6-bit values of a byte list recovers the bytes. -/
theorem bytesOfSextets_sextetsOf : ∀ l : List Nat, (∀ b ∈ l, b < 256) →
    bytesOfSextets (sextetsOf l) = l
  | [], _ => rfl
  | [a], h => by
      have ha : a < 256 := h a (by simp)
      simp only [sextetsOf, bytesOfSextets]
      congr 1
      omega
  | [a, b], h => by
      have ha : a < 256 := h a (by simp)
      have hb : b < 256 := h b (by simp)
      simp only [sextetsOf, bytesOfSextets]
      congr 1
      · omega
      · congr 1
        omega
  | a :: b :: c :: rest, h => by
      have ha : a < 256 := h a (by simp)
      have hb : b < 256 := h b (by simp)
      have hc : c < 256 := h c (by simp)
      have ih := bytesOfSextets_sextetsOf rest (fun x hx => h x (by simp [hx]))
      simp only [sextetsOf, bytesOfSextets, ih]
      congr 1
      · omega
      · congr 1
        · omega
        · congr 1
          omega

/-- Round trip: decoding an encoded byte list returns exactly the bytes. -/
theorem decodeB64_encodeB64 (l : List Nat) (h : ∀ b ∈ l, b < 256) :
    decodeB64 (encodeB64 l) = some l := by
  unfold decodeB64
  rw [filter_encodeB64 l h, sextetsOfChars_map (sextetsOf l) (sextetsOf_lt l h)]
  simp only [bytesOfSextets_sextetsOf l h]


/-! ## Store lemmas -/

/-- Mapping a function that fixes every member of a list is the identity. -/
theorem map_id_on {α : Type} : ∀ (l : List α) (f : α → α), (∀ x ∈ l, f x = x) → l.map f = l
  | [], _, _ => rfl
  | a :: t, f, h => by
      rw [List.map_cons, h a (by simp), map_id_on t f (fun x hx => h x (by simp [hx]))]

/-- Mapping two functions that agree on every member gives the same list. -/
theorem map_eq_map_on {α β : Type} : ∀ (l : List α) (f g : α → β),
    (∀ x ∈ l, f x = g x) → l.map f = l.map g
  | [], _, _, _ => rfl
  | a :: t, f, g, h => by
      rw [List.map_cons, List.map_cons, h a (by simp),
        map_eq_map_on t f g (fun x hx => h x (by simp [hx]))]

/-- Key count of a cons cell. -/
theorem countKey_cons (r : LBRecord) (store : Store) (k : List Char) :
    countKey (r :: store) k = (if r.device_id = k then 1 else 0) + countKey store k := by
  by_cases h : r.device_id = k
  · simp [countKey, List.filter_cons, h, Nat.add_comm]
  · simp [countKey, List.filter_cons, h]

/-- Key counts add over append. -/
theorem countKey_append (s t : Store) (k : List Char) :
    countKey (s ++ t) k = countKey s k + countKey t k := by
  simp [countKey, List.filter_append]

/-- A key count is zero exactly when no row carries the key. -/
theorem countKey_eq_zero_iff (store : Store) (k : List Char) :
    countKey store k = 0 ↔ ∀ r ∈ store, ¬ (r.device_id = k) := by
  rw [countKey, List.length_eq_zero, List.filter_eq_nil_iff]
  simp

/-- `findFirst` finds nothing exactly when no row carries the key. -/
theorem findByDeviceId_eq_none (store : Store) (k : List Char) :
    findByDeviceId store k = none ↔ ∀ r ∈ store, ¬ (r.device_id = k) := by
  rw [findByDeviceId, List.find?_eq_none]
  simp

/-- A found row is a member of the store and carries the key. -/
theorem findByDeviceId_some_mem {store : Store} {k : List Char} {d : LBRecord}
    (h : findByDeviceId store k = some d) : d ∈ store ∧ d.device_id = k := by
  refine ⟨List.mem_of_find?_eq_some h, ?_⟩
  have := List.find?_some h
  simpa using this

/-- A successful `findFirst` witnesses a positive key count. -/
theorem countKey_pos_of_find {store : Store} {k : List Char} {d : LBRecord}
    (h : findByDeviceId store k = some d) : 1 ≤ countKey store k := by
  obtain ⟨hmem, hk⟩ := findByDeviceId_some_mem h
  have hmf : d ∈ store.filter (fun r => r.device_id == k) :=
    List.mem_filter.mpr ⟨hmem, by simp [hk]⟩
  have := List.length_pos.mpr (List.ne_nil_of_mem hmf)
  simpa [countKey] using this

/-- A positive key count makes `findFirst` succeed. -/
theorem find_of_countKey_pos {store : Store} {k : List Char}
    (h : 1 ≤ countKey store k) : ∃ d, findByDeviceId store k = some d := by
  rcases hfe : findByDeviceId store k with _ | d
  · rw [findByDeviceId_eq_none] at hfe
    have := (countKey_eq_zero_iff store k).mpr hfe
    omega
  · exact ⟨d, rfl⟩

/-- Key counts are invariant under maps that preserve the key column. -/
theorem countKey_map (store : Store) (f : LBRecord → LBRecord)
    (hf : ∀ r, (f r).device_id = r.device_id) (k : List Char) :
    countKey (store.map f) k = countKey store k := by
  induction store with
  | nil => rfl
  | cons r t ih => rw [List.map_cons, countKey_cons, countKey_cons, hf r, ih]

/-- The telemetry overwrite does not move any row between keys. -/
theorem countKey_updateTelemetry (store : Store) (k k' : List Char)
    (req : TrackRequest) (now : Nat) :
    countKey (updateTelemetryByKey store k req now) k' = countKey store k' := by
  rw [updateTelemetryByKey]
  apply countKey_map
  intro r
  by_cases h : r.device_id = k <;> simp [h]

/-- Renaming the row found under key `k` to key `new` moves exactly one row:
the count under `new` grows by one, the count under `k` shrinks by one (and
was positive).  Row ids must be distinct for the rename-by-id to hit only
the found row. -/
theorem countKey_rename : ∀ (store : Store) (d : LBRecord) (k new : List Char),
    findByDeviceId store k = some d →
    (store.map (fun r => r.id)).Nodup → k ≠ new →
    countKey (updateDeviceIdById store d.id new) new = countKey store new + 1 ∧
    countKey (updateDeviceIdById store d.id new) k = countKey store k - 1 ∧
    1 ≤ countKey store k
  | [], d, k, new, hfind, _, _ => by simp [findByDeviceId] at hfind
  | r :: t, d, k, new, hfind, hnodup, hne => by
      rw [List.map_cons, List.nodup_cons] at hnodup
      obtain ⟨hrid, hnd⟩ := hnodup
      by_cases hr : r.device_id = k
      · have hd : r = d := by
          rw [findByDeviceId, List.find?_cons_of_pos _ (by simp [hr])] at hfind
          exact Option.some.inj hfind
        subst hd
        have hmapt : t.map (fun x => if x.id == r.id then { x with device_id := new } else x) = t := by
          apply map_id_on
          intro x hx
          have hxid : ¬ (x.id = r.id) := fun hxy => hrid (hxy ▸ List.mem_map_of_mem _ hx)
          simp [hxid]
        have hupd : updateDeviceIdById (r :: t) r.id new = { r with device_id := new } :: t := by
          rw [updateDeviceIdById, List.map_cons]
          simp only [beq_self_eq_true, if_true]
          rw [hmapt]
        rw [hupd]
        have hdevid : ({ r with device_id := new } : LBRecord).device_id = new := rfl
        refine ⟨?_, ?_, ?_⟩
        · rw [countKey_cons, countKey_cons, hdevid,
            if_pos rfl, if_neg (show ¬ r.device_id = new by rw [hr]; exact hne)]
          omega
        · rw [countKey_cons, countKey_cons, hdevid,
            if_neg (show ¬ new = k from fun hx => hne hx.symm), if_pos hr]
          omega
        · rw [countKey_cons, if_pos hr]
          omega
      · rw [findByDeviceId, List.find?_cons_of_neg _ (by simp [hr])] at hfind
        have hfind' : findByDeviceId t k = some d := hfind
        obtain ⟨ih1, ih2, ih3⟩ := countKey_rename t d k new hfind' hnd hne
        have hdid : d.id ∈ t.map (fun r => r.id) :=
          List.mem_map_of_mem _ (List.mem_of_find?_eq_some hfind')
        have hrd : ¬ (r.id = d.id) := fun hx => hrid (hx ▸ hdid)
        have hupd : updateDeviceIdById (r :: t) d.id new =
            r :: updateDeviceIdById t d.id new := by
          simp [updateDeviceIdById, hrd]
        rw [hupd]
        refine ⟨?_, ?_, ?_⟩
        · rw [countKey_cons, countKey_cons, ih1]
          generalize (if r.device_id = new then (1 : Nat) else 0) = c
          omega
        · rw [countKey_cons, countKey_cons, ih2, if_neg hr]
          omega
        · rw [countKey_cons, if_neg hr]
          omega

/-- The computed signature is never the empty string (it is eight hex
characters), so the handler's falsy-header check does not trip on it. -/
theorem signatureOf_ne_nil (secret payload : List Nat) :
    signatureOf secret payload ≠ [] := by
  simp [signatureOf, keyedDigest, bytesToHex]

/-- A correctly computed signature verifies (shared form of claim C1, used
to reduce the handler). -/
theorem verifyRequest_correct (secret P : List Nat) :
    verifyRequest secret P (signatureOf secret P) = .ok P := by
  simp [verifyRequest]

/-- On a signed, schema-valid request the `/track` handler runs the
migration and upsert section and reports success. -/
theorem trackHandler_valid_eq (secret : List Nat) (freshId : List Char) (now : Nat)
    (req : TrackRequest) (store : Store)
    (hsig : req.sig = some (signatureOf secret req.rawBody))
    (hmac : validMacShape req.mac = true) (hdob : req.dobValid = true) :
    trackHandler secret freshId now req store =
      (.success, migrateAndUpsert freshId now req store) := by
  simp [trackHandler, hsig, signatureOf_ne_nil, verifyRequest_correct, hmac, hdob]

/-- One migration-and-upsert pass starting from at most one row for the
device (under either key) leaves exactly one row, under the current key. -/
theorem migrate_establishes (freshId : List Char) (now : Nat) (req : TrackRequest)
    (store : Store)
    (hkeys : oldGeneratedDeviceId req.mac ≠ generatedDeviceId req.mac)
    (hnodup : (store.map (fun r => r.id)).Nodup)
    (hsum : countKey store (oldGeneratedDeviceId req.mac) +
      countKey store (generatedDeviceId req.mac) ≤ 1) :
    countKey (migrateAndUpsert freshId now req store) (generatedDeviceId req.mac) = 1 ∧
    countKey (migrateAndUpsert freshId now req store) (oldGeneratedDeviceId req.mac) = 0 := by
  simp only [migrateAndUpsert]
  cases hfind : findByDeviceId store (oldGeneratedDeviceId req.mac) with
  | some d =>
      dsimp only
      obtain ⟨h1, h2, h3⟩ := countKey_rename store d (oldGeneratedDeviceId req.mac)
        (generatedDeviceId req.mac) hfind hnodup hkeys
      obtain ⟨e, he⟩ := find_of_countKey_pos
        (show 1 ≤ countKey (updateDeviceIdById store d.id (generatedDeviceId req.mac))
          (generatedDeviceId req.mac) by omega)
      rw [he]
      rw [countKey_updateTelemetry, countKey_updateTelemetry]
      constructor <;> omega
  | none =>
      dsimp only
      have hleg0 : countKey store (oldGeneratedDeviceId req.mac) = 0 :=
        (countKey_eq_zero_iff _ _).mpr ((findByDeviceId_eq_none _ _).mp hfind)
      cases hfind2 : findByDeviceId store (generatedDeviceId req.mac) with
      | some e =>
          dsimp only
          have hpos := countKey_pos_of_find hfind2
          rw [countKey_updateTelemetry, countKey_updateTelemetry]
          omega
      | none =>
          dsimp only
          have hcur0 : countKey store (generatedDeviceId req.mac) = 0 :=
            (countKey_eq_zero_iff _ _).mpr ((findByDeviceId_eq_none _ _).mp hfind2)
          rw [countKey_append, countKey_append]
          have hone : countKey [createRecord freshId (generatedDeviceId req.mac) req now]
              (generatedDeviceId req.mac) = 1 := by
            rw [countKey_cons]
            simp [createRecord, countKey]
          have hzero : countKey [createRecord freshId (generatedDeviceId req.mac) req now]
              (oldGeneratedDeviceId req.mac) = 0 := by
            rw [countKey_cons]
            have hx : ¬ (generatedDeviceId req.mac = oldGeneratedDeviceId req.mac) :=
              fun hx => hkeys hx.symm
            simp [createRecord, countKey, hx]
          omega

/-- Once the store holds exactly one row for the device under the current
key, further migration-and-upsert passes keep it that way. -/
theorem migrate_preserves (freshId : List Char) (now : Nat) (req : TrackRequest)
    (store : Store)
    (hcur : countKey store (generatedDeviceId req.mac) = 1)
    (hleg : countKey store (oldGeneratedDeviceId req.mac) = 0) :
    countKey (migrateAndUpsert freshId now req store) (generatedDeviceId req.mac) = 1 ∧
    countKey (migrateAndUpsert freshId now req store) (oldGeneratedDeviceId req.mac) = 0 := by
  simp only [migrateAndUpsert]
  have hf1 : findByDeviceId store (oldGeneratedDeviceId req.mac) = none :=
    (findByDeviceId_eq_none _ _).mpr ((countKey_eq_zero_iff _ _).mp hleg)
  rw [hf1]
  dsimp only
  obtain ⟨e, he⟩ := find_of_countKey_pos
    (show 1 ≤ countKey store (generatedDeviceId req.mac) by omega)
  rw [he]
  rw [countKey_updateTelemetry, countKey_updateTelemetry]
  exact ⟨hcur, hleg⟩

/-- Members of a sanitised object never carry one of the removed field
names. -/
theorem sanitize_not_mem (obj : JsObject) (fields : List (List Char)) :
    ∀ kv ∈ sanitize obj fields, kv.1 ∉ fields := by
  intro kv hkv
  exact of_decide_eq_true (List.mem_filter.mp hkv).2

/-! ## Claims about the request authenticator -/

/-- Claim C1: for every payload byte sequence `P` and the signature
correctly computed over `P` with the configured shared secret,
`verifyRequest P S` succeeds and returns exactly the original payload bytes
`P`, unchanged; the function is pure, so there are no side effects. -/
theorem C1_verify_correct_signature (secret P : List Nat) :
    verifyRequest secret P (signatureOf secret P) = .ok P := by
  simp [verifyRequest]

/-- Claim C2: for every payload and every signature string differing from
the correct keyed digest of the payload, verification is rejected, and the
`/track` handler surfaces the rejection to the HTTP caller as a client
error (the signature-failure code), never as a server error. -/
theorem C2_verify_mismatch_rejected (secret : List Nat) (S freshId : List Char)
    (now : Nat) (req : TrackRequest) (store : Store)
    (hS : S ≠ signatureOf secret req.rawBody) (hsig : req.sig = some S) (hne : S ≠ []) :
    verifyRequest secret req.rawBody S = .rejected ∧
    (trackHandler secret freshId now req store).1 =
      .clientError "invalid_signature".toList ∧
    ∀ c, (trackHandler secret freshId now req store).1 ≠ .serverError c := by
  have hv : verifyRequest secret req.rawBody S = .rejected := by
    rw [verifyRequest, if_neg]
    exact fun h => hS h.symm
  have ht : (trackHandler secret freshId now req store).1 =
      .clientError "invalid_signature".toList := by
    simp [trackHandler, hsig, if_neg hne, hv]
  refine ⟨hv, ht, ?_⟩
  intro c hc
  rw [ht] at hc
  exact TrackOutcome.noConfusion hc

/-- A concrete run of `C2_verify_mismatch_rejected`: the signature `"x"` is
wrong for body `[5]` under secret `[1, 2]`, verification rejects it and the
handler answers with the client-error code. -/
theorem C2_witness :
    (['x'] : List Char) ≠ signatureOf [1, 2] [5] ∧
    verifyRequest [1, 2] [5] ['x'] = .rejected ∧
    (trackHandler [1, 2] [] 0
      { sig := some ['x'], rawBody := [5], mac := macEx, dobValid := true, dob := 0,
        deviceName := [], deviceModel := [], ownerName := [], totalDabs := 0,
        ip := [], user := none } []).1 = .clientError "invalid_signature".toList :=
  ⟨by decide,
   (C2_verify_mismatch_rejected [1, 2] ['x'] [] 0
      { sig := some ['x'], rawBody := [5], mac := macEx, dobValid := true, dob := 0,
        deviceName := [], deviceModel := [], ownerName := [], totalDabs := 0,
        ip := [], user := none } [] (by decide) rfl (by decide)).1,
   (C2_verify_mismatch_rejected [1, 2] ['x'] [] 0
      { sig := some ['x'], rawBody := [5], mac := macEx, dobValid := true, dob := 0,
        deviceName := [], deviceModel := [], ownerName := [], totalDabs := 0,
        ip := [], user := none } [] (by decide) rfl (by decide)).2.1⟩

/-! ## Claims about device identity derivation -/

/-- Claim C3 as stated is false: on the spec's example MAC the legacy key
the code computes differs from the key obtained by reinterpreting the
stripped MAC bytes as a *big-endian* 32-bit unsigned integer, because the
`byte-data` `unpack` call defaults to little-endian byte order. -/
theorem C3_counterexample : oldGeneratedDeviceId macEx ≠ legacyKeySpecBE macEx := by
  decide

/-- Claim C3 amended: for every MAC in colon-separated form, the legacy
device key equals: strip the fixed three-character prefix from the MAC's
textual form, reinterpret the first four remaining bytes as a
*little-endian* 32-bit unsigned integer, convert that integer to decimal
text, base64-encode that text and prepend the `device_` namespace tag. -/
theorem C3_legacy_key_little_endian (a b c d e f g h i j k l : Char) :
    oldGeneratedDeviceId [a, b, ':', c, d, ':', e, f, ':', g, h, ':', i, j, ':', k, l] =
      legacyKeySpecLE [a, b, ':', c, d, ':', e, f, ':', g, h, ':', i, j, ':', k, l] := by
  unfold oldGeneratedDeviceId legacyKeySpecLE
  congr 4
  simp [macToBytes, unpack32LE, leNum]
  ring

/-- Claim C4 as stated is false: for the spec's example MAC
`AA:BB:CC:DD:EE:FF`, decoding the text after the `device_` prefix of the
current key does not recover the six raw MAC bytes (it recovers the
seventeen bytes of the MAC's textual form instead). -/
theorem C4_counterexample :
    decodeB64 ((generatedDeviceId macEx).drop 7) ≠
      some [170, 187, 204, 221, 238, 255] := by
  decide

/-- Claim C4 amended: for every MAC text (any string of single-byte
characters), the current device key is the `device_` tag followed by a
reversible base64 encoding of the MAC's *textual* bytes, and decoding the
text after the prefix recovers exactly those textual bytes — the round trip
is at the level of the MAC string, not the six raw MAC bytes. -/
theorem C4_current_key_roundtrip (mac : List Char) (h : ∀ c ∈ mac, c.toNat < 256) :
    decodeB64 ((generatedDeviceId mac).drop 7) = some (textBytes mac) := by
  have hb : ∀ b ∈ textBytes mac, b < 256 := by
    intro b hb
    rcases List.mem_map.mp hb with ⟨c, hc, rfl⟩
    exact h c hc
  have h7 : deviceTag.length = 7 := rfl
  unfold generatedDeviceId
  rw [← h7, List.drop_left]
  exact decodeB64_encodeB64 _ hb

/-- A concrete run of `C4_current_key_roundtrip` on the spec's example MAC. -/
theorem C4_witness :
    decodeB64 ((generatedDeviceId macEx).drop 7) = some (textBytes macEx) :=
  C4_current_key_roundtrip macEx (by decide)

/-! ## Claims about the `/track` handler's error handling -/

/-- Claim C7 as stated is false: on a request whose MAC is malformed (here
`"ZZ"`) but whose signature is valid, the `/track` handler of `part_000`
sends no response at all — the schema validation error is swallowed by the
`catch (error) { console.error(error) }` block — so no validation error
code reaches the caller (the store is also left untouched). -/
theorem C7_counterexample :
    trackHandler [7] [] 0
      { sig := some (signatureOf [7] [1, 2, 3]), rawBody := [1, 2, 3],
        mac := ['Z', 'Z'], dobValid := true, dob := 0, deviceName := [],
        deviceModel := [], ownerName := [], totalDabs := 0, ip := [],
        user := none } [] = (.noResponse, []) := by
  decide

/-- Claim C7 amended: for every request whose device-identity (MAC) input
is malformed and whose signature passes, the handler attempts no key
derivation and writes no record, but it also signals nothing: the
validation error is caught and only logged, so no response — in particular
no specific error code distinct from signature failure — is sent. -/
theorem C7_malformed_mac_swallowed (secret : List Nat) (freshId S : List Char)
    (now : Nat) (req : TrackRequest) (store : Store)
    (hsig : req.sig = some S) (hne : S ≠ [])
    (hok : verifyRequest secret req.rawBody S = .ok req.rawBody)
    (hmac : validMacShape req.mac = false) :
    trackHandler secret freshId now req store = (.noResponse, store) := by
  simp [trackHandler, hsig, if_neg hne, hok, hmac]

/-- A concrete run of `C7_malformed_mac_swallowed` on the malformed MAC
`"ZZ"`. -/
theorem C7_witness :
    validMacShape ['Z', 'Z'] = false ∧
    trackHandler [7] [] 0
      { sig := some (signatureOf [7] [1, 2, 3]), rawBody := [1, 2, 3],
        mac := ['Z', 'Z'], dobValid := true, dob := 0, deviceName := [],
        deviceModel := [], ownerName := [], totalDabs := 0, ip := [],
        user := none } [] = (.noResponse, []) :=
  ⟨by decide,
   C7_malformed_mac_swallowed [7] [] (signatureOf [7] [1, 2, 3]) 0
     { sig := some (signatureOf [7] [1, 2, 3]), rawBody := [1, 2, 3],
       mac := ['Z', 'Z'], dobValid := true, dob := 0, deviceName := [],
       deviceModel := [], ownerName := [], totalDabs := 0, ip := [],
       user := none } [] rfl (by decide) (by decide) (by decide)⟩

/-- Claim C8: a telemetry submission without the `x-signature` header is
answered `400` with the `invalid_tracking_data` code before verification is
ever invoked — the result does not depend on the secret or on the body —
and the store is returned unchanged, so no record is read or written. -/
theorem C8_missing_header_rejected_early (secret : List Nat) (freshId : List Char)
    (now : Nat) (req : TrackRequest) (store : Store) (h : req.sig = none) :
    trackHandler secret freshId now req store =
      (.clientError "invalid_tracking_data".toList, store) := by
  simp [trackHandler, h]

/-- A concrete run of `C8_missing_header_rejected_early`. -/
theorem C8_witness :
    trackHandler [1] [] 0
      { sig := none, rawBody := [5], mac := macEx, dobValid := true, dob := 0,
        deviceName := [], deviceModel := [], ownerName := [], totalDabs := 0,
        ip := [], user := none } [] =
      (.clientError "invalid_tracking_data".toList, []) :=
  C8_missing_header_rejected_early [1] [] 0
    { sig := none, rawBody := [5], mac := macEx, dobValid := true, dob := 0,
      deviceName := [], deviceModel := [], ownerName := [], totalDabs := 0,
      ip := [], user := none } [] rfl

/-! ## Claims about migration and persistence -/

/-- Claim C5: starting from at most one stored row for a device (under
either of its keys, with distinct row ids), any number `n ≥ 1` of
sequential `/track` submissions for that device converges to exactly one
row under the current key and zero rows under the legacy key — the
migration step is idempotent and repeated telemetry never creates a
duplicate row. -/
theorem C5_migration_idempotent (secret : List Nat) (freshId : List Char) (now : Nat)
    (req : TrackRequest) (store : Store) (n : Nat)
    (hsig : req.sig = some (signatureOf secret req.rawBody))
    (hmac : validMacShape req.mac = true) (hdob : req.dobValid = true)
    (hkeys : oldGeneratedDeviceId req.mac ≠ generatedDeviceId req.mac)
    (hnodup : (store.map (fun r => r.id)).Nodup)
    (hsum : countKey store (oldGeneratedDeviceId req.mac) +
      countKey store (generatedDeviceId req.mac) ≤ 1)
    (hn : 1 ≤ n) :
    countKey ((stepStore secret freshId now req)^[n] store)
      (generatedDeviceId req.mac) = 1 ∧
    countKey ((stepStore secret freshId now req)^[n] store)
      (oldGeneratedDeviceId req.mac) = 0 := by
  have hstep : ∀ s : Store,
      stepStore secret freshId now req s = migrateAndUpsert freshId now req s := by
    intro s
    rw [stepStore, trackHandler_valid_eq secret freshId now req s hsig hmac hdob]
  have hiter : ∀ (m : Nat) (s : Store),
      countKey s (generatedDeviceId req.mac) = 1 →
      countKey s (oldGeneratedDeviceId req.mac) = 0 →
      countKey ((stepStore secret freshId now req)^[m] s) (generatedDeviceId req.mac) = 1 ∧
      countKey ((stepStore secret freshId now req)^[m] s) (oldGeneratedDeviceId req.mac) = 0 := by
    intro m
    induction m with
    | zero =>
        intro s h1 h2
        simpa using ⟨h1, h2⟩
    | succ m ih =>
        intro s h1 h2
        rw [Function.iterate_succ_apply]
        have hp := migrate_preserves freshId now req s h1 h2
        rw [← hstep s] at hp
        exact ih _ hp.1 hp.2
  obtain ⟨m, rfl⟩ : ∃ m, n = m + 1 := ⟨n - 1, by omega⟩
  rw [Function.iterate_succ_apply]
  have h0 := migrate_establishes freshId now req store hkeys hnodup hsum
  rw [← hstep store] at h0
  exact hiter m _ h0.1 h0.2

/-- A concrete run of `C5_migration_idempotent`: one row stored under the
legacy key of the example MAC, one submission, exactly one row under the
current key afterwards and none under the legacy key. -/
theorem C5_witness :
    countKey ((stepStore secretEx "lb_2".toList 7 reqEx)^[1] [rec0Legacy])
      (generatedDeviceId macEx) = 1 ∧
    countKey ((stepStore secretEx "lb_2".toList 7 reqEx)^[1] [rec0Legacy])
      (oldGeneratedDeviceId macEx) = 0 :=
  C5_migration_idempotent secretEx "lb_2".toList 7 reqEx [rec0Legacy] 1 rfl
    (by decide) rfl (by decide) (by decide) (by decide) (by decide)

/-- Claim C6 is contradicted by the code: the migration rename is a
`findFirst` (read) followed by a separate `update where { id }` (write),
not a single atomic compare-and-rename.  With one legacy row stored and two
concurrent migration attempts interleaved read-A, read-B, write-A, write-B,
both attempts observe the legacy row (first two conjuncts), so the loser
does not "observe the already-migrated currentKey record"; the third
conjunct shows that an attempt reading after the first write — which is the
only ordering an atomic compare-and-rename would permit — no longer finds
the legacy row. -/
theorem C6_rename_not_atomic :
    (raceObservations [rec0Legacy] (oldGeneratedDeviceId macEx)
      (generatedDeviceId macEx)).1 = some rec0Legacy ∧
    (raceObservations [rec0Legacy] (oldGeneratedDeviceId macEx)
      (generatedDeviceId macEx)).2.1 = some rec0Legacy ∧
    findByDeviceId
      (updateDeviceIdById [rec0Legacy] rec0Legacy.id (generatedDeviceId macEx))
      (oldGeneratedDeviceId macEx) = none := by
  refine ⟨by decide, by decide, by decide⟩

/-- Claim C9: on a contact from an already-known device (a row exists under
the current key, none under the legacy key), the handler succeeds, every
row's identity (`id` and `device_id`) and creation timestamp are unchanged,
and the known row's mutable telemetry columns (name, birthday, model,
owner, totals, last-active, last IP) hold the submitted values. -/
theorem C9_update_frame (secret : List Nat) (freshId : List Char) (now : Nat)
    (req : TrackRequest) (store : Store)
    (hsig : req.sig = some (signatureOf secret req.rawBody))
    (hmac : validMacShape req.mac = true) (hdob : req.dobValid = true)
    (hleg : findByDeviceId store (oldGeneratedDeviceId req.mac) = none)
    (hcur : ∃ d, findByDeviceId store (generatedDeviceId req.mac) = some d) :
    (trackHandler secret freshId now req store).1 = .success ∧
    ((trackHandler secret freshId now req store).2).map
        (fun r => (r.id, r.device_id, r.created_at)) =
      store.map (fun r => (r.id, r.device_id, r.created_at)) ∧
    ∀ r ∈ (trackHandler secret freshId now req store).2,
      r.device_id = generatedDeviceId req.mac →
      r.device_name = req.deviceName ∧ r.device_dob = req.dob ∧
      r.device_model = req.deviceModel ∧ r.owner_name = req.ownerName ∧
      r.total_dabs = req.totalDabs ∧ r.last_active = some now ∧
      r.last_ip = req.ip := by
  obtain ⟨d, hd⟩ := hcur
  have heq : trackHandler secret freshId now req store =
      (.success, updateTelemetryByKey store (generatedDeviceId req.mac) req now) := by
    rw [trackHandler_valid_eq secret freshId now req store hsig hmac hdob]
    simp only [migrateAndUpsert, hleg, hd]
  rw [heq]
  refine ⟨rfl, ?_, ?_⟩
  · rw [updateTelemetryByKey, List.map_map]
    apply map_eq_map_on
    intro x hx
    by_cases h : x.device_id = generatedDeviceId req.mac <;> simp [h]
  · intro r hr hrk
    rw [updateTelemetryByKey] at hr
    rcases List.mem_map.mp hr with ⟨x, hx, rfl⟩
    by_cases h : x.device_id = generatedDeviceId req.mac
    · simp [h]
    · rw [if_neg (show ¬ ((x.device_id == generatedDeviceId req.mac) = true) by
        simp [h])] at hrk
      exact absurd hrk h

/-- A concrete run of `C9_update_frame`: updating the known row for the
example MAC reports success and leaves every row's identity and creation
timestamp as they were. -/
theorem C9_witness :
    (trackHandler secretEx "lb_9".toList 99 reqEx [rec0]).1 = .success ∧
    ((trackHandler secretEx "lb_9".toList 99 reqEx [rec0]).2).map
        (fun r => (r.id, r.device_id, r.created_at)) =
      [rec0].map (fun r => (r.id, r.device_id, r.created_at)) :=
  ⟨(C9_update_frame secretEx "lb_9".toList 99 reqEx [rec0] rfl (by decide) rfl
      (by decide) ⟨rec0, by decide⟩).1,
   (C9_update_frame secretEx "lb_9".toList 99 reqEx [rec0] rfl (by decide) rfl
      (by decide) ⟨rec0, by decide⟩).2.1⟩

/-! ## Claim about the sanitised read endpoints -/

/-- Claim C10: every leaderboard entry and every device record returned by
the public read endpoints — `GET /leaderboard` and `GET /device/...` in
both revisions — has its `last_ip` field (and, in the later revision, also
`mac` and `serial_number`) removed by `sanitize` before being sent, so a
client-visible response never contains a stored IP address, for any stored
data and any request. -/
theorem C10_read_endpoints_sanitized :
    (∀ (store : Store) (e : JsObject), e ∈ leaderboardV1 store →
      ∀ kv ∈ e, kv.1 ≠ "last_ip".toList) ∧
    (∀ (store : Store) (param : List Char) (e : JsObject),
      deviceV1 store param = some e → ∀ kv ∈ e, kv.1 ≠ "last_ip".toList) ∧
    (∀ (rows : List (Nat × DevRecord)) (limit : Nat) (p : Nat × JsObject),
      p ∈ leaderboardV2 rows limit → ∀ kv ∈ p.2,
        kv.1 ≠ "last_ip".toList ∧ kv.1 ≠ "mac".toList ∧
        kv.1 ≠ "serial_number".toList) ∧
    (∀ (devices : List DevRecord) (param : List Char) (e : JsObject),
      deviceV2 devices param = some e → ∀ kv ∈ e,
        kv.1 ≠ "last_ip".toList ∧ kv.1 ≠ "mac".toList ∧
        kv.1 ≠ "serial_number".toList) := by
  refine ⟨?_, ?_, ?_, ?_⟩
  · intro store e he kv hkv
    rcases List.mem_map.mp he with ⟨r, _, rfl⟩
    have hn := sanitize_not_mem _ _ kv hkv
    simpa using hn
  · intro store param e he kv hkv
    rcases Option.map_eq_some'.mp he with ⟨r, _, rfl⟩
    have hn := sanitize_not_mem _ _ kv hkv
    simpa using hn
  · intro rows limit p hp kv hkv
    rcases List.mem_map.mp hp with ⟨q, _, rfl⟩
    have hn := sanitize_not_mem _ _ kv hkv
    refine ⟨?_, ?_, ?_⟩ <;> intro hEq <;> refine hn ?_ <;> rw [hEq] <;> decide
  · intro devices param e he kv hkv
    rcases Option.bind_eq_some.mp he with ⟨bytes, _, hfd⟩
    rcases Option.map_eq_some'.mp hfd with ⟨dvc, _, rfl⟩
    have hn := sanitize_not_mem _ _ kv hkv
    refine ⟨?_, ?_, ?_⟩ <;> intro hEq <;> refine hn ?_ <;> rw [hEq] <;> decide

/-- A concrete run of `C10_read_endpoints_sanitized`: the sanitised entry
for the sample row is in the leaderboard response, its `device_id` field
survives, and that field's name is not `last_ip`. -/
theorem C10_witness :
    sanitize rec0.jsFields ["last_ip".toList] ∈ leaderboardV1 [rec0] ∧
    ("device_id".toList, rec0.device_id) ∈ sanitize rec0.jsFields ["last_ip".toList] ∧
    ("device_id".toList, rec0.device_id).1 ≠ "last_ip".toList :=
  ⟨by decide, by decide,
   C10_read_endpoints_sanitized.1 [rec0] (sanitize rec0.jsFields ["last_ip".toList])
     (by decide) ("device_id".toList, rec0.device_id) (by decide)⟩

end Puff
